import Mathlib

/-!
# Verification of `pkg/utils/utils.go` (opi-gateway-evpn-cni)

Shallow embedding of the utility layer of the opi-gateway-evpn-cni plugin:
the NetConf cache (`SaveNetConf` / `saveScratchNetConf` / `ReadScratchNetConf` /
`CleanCachedNetConf`), the sysfs device resolver (`GetSriovNumVfs`, `GetVfid`,
`GetPciAddress`, `GetVFLinkNames`, `GetVFLinkNamesFromVFID`,
`GetContainerNetDevFromPci`), the MAC validation predicate
(`IsValidMACAddress`) and the retry helper (`Retry`).

The filesystem is modelled as explicit state: an association list from paths
to contents, together with sets of paths on which individual syscalls fail
(permission errors and the like).  Byte slices are `List Nat`, Go `int` is
`Int` where sign matters and `Nat` for loop counters.  `filepath.Join` and
`filepath.Clean` are modelled as plain concatenation with `"/"`; all paths
appearing in the claims are already clean, and the Go constants that begin
with `/` are concatenated exactly as `Join` would render them.
-/

set_option autoImplicit false

namespace EvpnCni

instance exceptDecEq {ε α : Type} [DecidableEq ε] [DecidableEq α] :
    DecidableEq (Except ε α) := fun
  | .error a, .error b =>
    if h : a = b then .isTrue (by rw [h])
    else .isFalse (fun hc => h (Except.error.inj hc))
  | .error _, .ok _ => .isFalse (fun hc => Except.noConfusion hc)
  | .ok _, .error _ => .isFalse (fun hc => Except.noConfusion hc)
  | .ok a, .ok b =>
    if h : a = b then .isTrue (by rw [h])
    else .isFalse (fun hc => h (Except.ok.inj hc))

/-- First-match lookup in a path-keyed association list (the filesystem view:
paths are unique, so first match is the entry). -/
def assocFind {α : Type} : List (String × α) → String → Option α
  | [], _ => none
  | (k, v) :: rest, key => if k = key then some v else assocFind rest key

/-- Remove every entry stored under path `k` (models file deletion /
overwrite; uses `filter` so removal is total even on ill-formed lists). -/
def removeKey {α : Type} (l : List (String × α)) (k : String) : List (String × α) :=
  l.filter (fun e => e.1 != k)

theorem assocFind_cons_self {α : Type} (k : String) (v : α) (l : List (String × α)) :
    assocFind ((k, v) :: l) k = some v := by
  simp [assocFind]

theorem assocFind_removeKey_self {α : Type} (l : List (String × α)) (k : String) :
    assocFind (removeKey l k) k = none := by
  induction l with
  | nil => rfl
  | cons e rest ih =>
    by_cases h : e.1 = k
    · simpa [removeKey, List.filter_cons, h] using ih
    · simpa [removeKey, List.filter_cons, h, assocFind] using ih

/-! ## Host filesystem state for the NetConf cache (`os.Stat`, `os.Remove`,
`os.WriteFile`, `os.ReadFile`, `os.MkdirAll`) -/

/-- Host filesystem state seen by the NetConf cache.  `files` maps a path to
its byte content; the `…Err` fields list paths/directories on which the
corresponding syscall fails with an error other than non-existence
(e.g. permission denied). -/
structure FS where
  files : List (String × List Nat)
  statErr : List String
  removeErr : List String
  writeErr : List String
  mkdirErr : List String
deriving DecidableEq

/-- Outcome of `os.Stat`: success, a does-not-exist error
(`os.IsNotExist`), or any other error. -/
inductive StatOutcome where
  | okFile
  | notExist
  | otherErr
deriving DecidableEq

def osStat (fs : FS) (path : String) : StatOutcome :=
  if path ∈ fs.statErr then .otherErr
  else
    match assocFind fs.files path with
    | some _ => .okFile
    | none => .notExist

/-- `os.ReadFile`: content when the file exists, `none` on error. -/
def osReadFile (fs : FS) (path : String) : Option (List Nat) :=
  if path ∈ fs.statErr then none else assocFind fs.files path

/-- `os.Remove`: deletes the entry; `none` models a removal error. -/
def osRemove (fs : FS) (path : String) : Option FS :=
  if path ∈ fs.removeErr then none
  else some { fs with files := removeKey fs.files path }

/-- `os.WriteFile`: creates or overwrites the entry; `none` models a write
error. -/
def osWriteFile (fs : FS) (path : String) (data : List Nat) : Option FS :=
  if path ∈ fs.writeErr then none
  else some { fs with files := (path, data) :: removeKey fs.files path }

/-- `os.MkdirAll dataDir 0700`: succeeds (no visible state change the cache
reads back) unless the directory is in the failure set. -/
def osMkdirAll (fs : FS) (dir : String) : Option FS :=
  if dir ∈ fs.mkdirErr then none else some fs

/-- `filepath.Join` for the two-component joins in the cache code; all paths
involved are clean, so `Join a b = a ++ "/" ++ b`. -/
def filepathJoin (a b : String) : String := a ++ "/" ++ b

/-! ## NetConf cache (utils.go lines 262-317) -/

/-- `CleanCachedNetConf` (utils.go:303): `os.Stat` the path; a
does-not-exist error is success, any other stat error is returned;
otherwise `os.Remove`, surfacing its error. -/
def CleanCachedNetConf (fs : FS) (cRefPath : String) : Except String FS :=
  match osStat fs cRefPath with
  | .notExist => .ok fs
  | .otherErr => .error ("error stating cached NetConf file " ++ cRefPath)
  | .okFile =>
    match osRemove fs cRefPath with
    | none => .error ("error removing NetConf file " ++ cRefPath)
    | some fs' => .ok fs'

/-- `ReadScratchNetConf` (utils.go:293): `os.ReadFile` of the (already
clean) path, wrapping a read failure in an error message. -/
def ReadScratchNetConf (fs : FS) (cRefPath : String) : Except String (List Nat) :=
  match osReadFile fs cRefPath with
  | none => .error ("failed to read container data in the path " ++ cRefPath)
  | some data => .ok data

/-- `saveScratchNetConf` (utils.go:277): `os.MkdirAll dataDir 0700`, then
`os.WriteFile (dataDir/containerID) netconf 0600`. -/
def saveScratchNetConf (fs : FS) (containerID dataDir : String) (netconf : List Nat) :
    Except String FS :=
  match osMkdirAll fs dataDir with
  | none => .error ("failed to create the sriov data directory " ++ dataDir)
  | some fs1 =>
    match osWriteFile fs1 (filepathJoin dataDir containerID) netconf with
    | none => .error ("failed to write container data in the path " ++
        filepathJoin dataDir containerID)
    | some fs2 => .ok fs2

/-- `SaveNetConf` (utils.go:264): `json.Marshal conf` is modelled by the
already-serialized `netConfBytes` argument (the cache treats the payload as
an opaque byte blob and a marshal failure returns before any filesystem
effect); the cache key is `strings.Join [cid, podIfName] "-"`. -/
def SaveNetConf (fs : FS) (cid dataDir podIfName : String) (netConfBytes : List Nat) :
    Except String FS :=
  let cRef := String.intercalate "-" [cid, podIfName]
  saveScratchNetConf fs cRef dataDir netConfBytes

/-! ## MAC validation (utils.go:319-335) -/

/-- The two reserved addresses rejected by `IsValidMACAddress`. -/
def invalidMACAddresses : List (List Nat) :=
  [[0x00, 0x00, 0x00, 0x00, 0x00, 0x00],
   [0xFF, 0xFF, 0xFF, 0xFF, 0xFF, 0xFF]]

/-- `IsValidMACAddress` (utils.go:320): valid starts false; a 6-byte address
is valid unless the loop over `invalidMACAddresses` finds it equal to one of
them. -/
def IsValidMACAddress (addr : List Nat) : Bool :=
  if addr.length = 6 then
    invalidMACAddresses.foldl
      (fun valid invalidMACAddress => if addr = invalidMACAddress then false else valid)
      true
  else false

/-- C4: `IsValidMACAddress` returns true iff the address is exactly 6 bytes
and is neither the all-zero nor the all-one address; in particular it is
false for every address whose length is not 6. -/
theorem isValidMACAddress_iff (addr : List Nat) :
    IsValidMACAddress addr = true ↔
      (addr.length = 6 ∧ addr ≠ [0x00, 0x00, 0x00, 0x00, 0x00, 0x00] ∧
        addr ≠ [0xFF, 0xFF, 0xFF, 0xFF, 0xFF, 0xFF]) := by
  unfold IsValidMACAddress invalidMACAddresses
  by_cases h6 : addr.length = 6
  · by_cases hz : addr = [0x00, 0x00, 0x00, 0x00, 0x00, 0x00] <;>
      by_cases ho : addr = [0xFF, 0xFF, 0xFF, 0xFF, 0xFF, 0xFF] <;>
      simp [h6, hz, ho, List.foldl]
  · simp [h6]

/-! ## Cache claims: Clear idempotence (C1), round-trip (C2), key collision (C10) -/

theorem saveScratchNetConf_ok_iff (fs fs' : FS) (containerID dataDir : String)
    (netconf : List Nat) :
    saveScratchNetConf fs containerID dataDir netconf = .ok fs' ↔
      (dataDir ∉ fs.mkdirErr ∧ filepathJoin dataDir containerID ∉ fs.writeErr ∧
        fs' = { fs with
          files := (filepathJoin dataDir containerID, netconf) ::
            removeKey fs.files (filepathJoin dataDir containerID) }) := by
  unfold saveScratchNetConf osMkdirAll osWriteFile
  by_cases hm : dataDir ∈ fs.mkdirErr <;>
    by_cases hw : filepathJoin dataDir containerID ∈ fs.writeErr <;>
    simp [hm, hw, eq_comm]

theorem read_after_saveScratch (fs : FS) (containerID dataDir : String)
    (netconf : List Nat) (fs' : FS)
    (hs : filepathJoin dataDir containerID ∉ fs.statErr)
    (h : saveScratchNetConf fs containerID dataDir netconf = .ok fs') :
    ReadScratchNetConf fs' (filepathJoin dataDir containerID) = .ok netconf := by
  rcases (saveScratchNetConf_ok_iff fs fs' containerID dataDir netconf).mp h with ⟨hm, hw, rfl⟩
  unfold ReadScratchNetConf osReadFile
  simp [hs, assocFind_cons_self]

/-- C1: `CleanCachedNetConf` returns no error when the entry does not exist;
when the entry exists (and removal does not fail) it removes it, so a
subsequent `ReadScratchNetConf` of the same path fails; a stat failure other
than non-existence and a removal failure are both returned as errors. -/
theorem cleanCachedNetConf_clear_spec (fs : FS) (path : String) :
    (osStat fs path = .notExist → CleanCachedNetConf fs path = .ok fs) ∧
    (osStat fs path = .otherErr →
      ∃ msg, CleanCachedNetConf fs path = .error msg) ∧
    (osStat fs path = .okFile → path ∈ fs.removeErr →
      ∃ msg, CleanCachedNetConf fs path = .error msg) ∧
    (osStat fs path = .okFile → path ∉ fs.removeErr →
      ∃ fs', CleanCachedNetConf fs path = .ok fs' ∧
        ∃ msg, ReadScratchNetConf fs' path = .error msg) := by
  refine ⟨?_, ?_, ?_, ?_⟩
  · intro h; unfold CleanCachedNetConf; rw [h]
  · intro h; unfold CleanCachedNetConf; rw [h]; exact ⟨_, rfl⟩
  · intro h hr
    unfold CleanCachedNetConf osRemove
    rw [h]
    simp [hr]
  · intro h hr
    unfold CleanCachedNetConf osRemove
    rw [h]
    simp only [hr, if_false, if_neg]
    refine ⟨_, rfl, ?_⟩
    unfold ReadScratchNetConf osReadFile
    by_cases hst : path ∈ fs.statErr
    · simp [hst]
    · simp [hst, assocFind_removeKey_self]

def fsC1 : FS :=
  { files := [("d/c1-eth0", [1, 2, 3])], statErr := [], removeErr := [],
    writeErr := [], mkdirErr := [] }

theorem cleanCachedNetConf_clear_spec_witness :
    ∃ fs', CleanCachedNetConf fsC1 "d/c1-eth0" = .ok fs' ∧
      ∃ msg, ReadScratchNetConf fs' "d/c1-eth0" = .error msg :=
  (cleanCachedNetConf_clear_spec fsC1 "d/c1-eth0").2.2.2 (by decide) (by decide)

/-- C2: a successful `SaveNetConf` followed by `ReadScratchNetConf` on the
derived entry path (`dataDir` joined with `containerID ++ "-" ++ podIfName`)
returns exactly the serialized bytes that were written, unmodified. -/
theorem saveNetConf_roundTrip (fs : FS) (cid dataDir podIfName : String)
    (netConfBytes : List Nat) (fs' : FS)
    (hs : filepathJoin dataDir (cid ++ "-" ++ podIfName) ∉ fs.statErr)
    (h : SaveNetConf fs cid dataDir podIfName netConfBytes = .ok fs') :
    ReadScratchNetConf fs' (filepathJoin dataDir (cid ++ "-" ++ podIfName)) =
      .ok netConfBytes := by
  have h' : saveScratchNetConf fs (cid ++ "-" ++ podIfName) dataDir netConfBytes = .ok fs' := h
  exact read_after_saveScratch fs (cid ++ "-" ++ podIfName) dataDir netConfBytes fs' hs h'

def fsEmpty : FS :=
  { files := [], statErr := [], removeErr := [], writeErr := [], mkdirErr := [] }

def fsAfterSave : FS :=
  { files := [("d/c1-eth0", [7, 8])], statErr := [], removeErr := [],
    writeErr := [], mkdirErr := [] }

theorem saveNetConf_roundTrip_witness :
    ReadScratchNetConf fsAfterSave (filepathJoin "d" ("c1" ++ "-" ++ "eth0")) = .ok [7, 8] :=
  saveNetConf_roundTrip fsEmpty "c1" "d" "eth0" [7, 8] fsAfterSave (by decide) rfl

/-- C10: the cache key `containerID ++ "-" ++ podIfName` is not injective:
two distinct (containerID, podIfName) pairs with equal concatenations write
the same cache file, so the later `SaveNetConf` silently overwrites the
earlier entry and a read keyed by either pair returns the later payload. -/
theorem saveNetConf_key_collision (fs : FS) (dataDir : String)
    (cid₁ pod₁ cid₂ pod₂ : String) (bytes₁ bytes₂ : List Nat) (fs₁ fs₂ : FS)
    (hne : (cid₁, pod₁) ≠ (cid₂, pod₂))
    (hkey : cid₁ ++ "-" ++ pod₁ = cid₂ ++ "-" ++ pod₂)
    (hs : filepathJoin dataDir (cid₂ ++ "-" ++ pod₂) ∉ fs₁.statErr)
    (h1 : SaveNetConf fs cid₁ dataDir pod₁ bytes₁ = .ok fs₁)
    (h2 : SaveNetConf fs₁ cid₂ dataDir pod₂ bytes₂ = .ok fs₂) :
    ReadScratchNetConf fs₂ (filepathJoin dataDir (cid₁ ++ "-" ++ pod₁)) = .ok bytes₂ ∧
    ReadScratchNetConf fs₂ (filepathJoin dataDir (cid₂ ++ "-" ++ pod₂)) = .ok bytes₂ := by
  have h2' : saveScratchNetConf fs₁ (cid₂ ++ "-" ++ pod₂) dataDir bytes₂ = .ok fs₂ := h2
  have hread := read_after_saveScratch fs₁ (cid₂ ++ "-" ++ pod₂) dataDir bytes₂ fs₂ hs h2'
  exact ⟨by rw [hkey]; exact hread, hread⟩

def fsCollide₁ : FS :=
  { files := [("d/a-b-c", [1])], statErr := [], removeErr := [],
    writeErr := [], mkdirErr := [] }

def fsCollide₂ : FS :=
  { files := [("d/a-b-c", [2])], statErr := [], removeErr := [],
    writeErr := [], mkdirErr := [] }

theorem saveNetConf_key_collision_witness :
    ReadScratchNetConf fsCollide₂ (filepathJoin "d" ("a-b" ++ "-" ++ "c")) = .ok [2] ∧
    ReadScratchNetConf fsCollide₂ (filepathJoin "d" ("a" ++ "-" ++ "b-c")) = .ok [2] :=
  saveNetConf_key_collision fsEmpty "d" "a-b" "c" "a" "b-c" [1] [2]
    fsCollide₁ fsCollide₂ (by decide) rfl (by decide) rfl rfl

/-! ## Sysfs state and the device resolver (utils.go lines 28-43, 68-240) -/

/-- Sysfs state seen by the device resolver.  `files` maps a path to its
text content (`os.ReadFile`), `symlinks` maps a symlink path to its target
(`os.Readlink`), `dirs` maps a directory path to its listed entry names
(`os.ReadDir`, which returns them sorted; the model stores the listing).
`os.Lstat` succeeds on any path present in one of the three maps. -/
structure SysFS where
  files : List (String × String)
  symlinks : List (String × String)
  dirs : List (String × List String)
deriving DecidableEq

def sriovConfigured : String := "/sriov_numvfs"

/-- `NetDirectory` sysfs net directory. -/
def NetDirectory : String := "/sys/class/net"

/-- `SysBusPci` sysfs pci device directory for host. -/
def SysBusPci : String := "/sys/bus/pci/devices"

/-- `ContainerSysBusPci` sysfs pci device directory for containers. -/
def ContainerSysBusPci : String := "/root/sys/bus/pci/devices"

/-- Value of a nonempty all-digit string (accumulator form, as
`strconv.Atoi` computes it). -/
def digitCharsToNat (l : List Char) : Nat :=
  l.foldl (fun acc c => acc * 10 + (c.toNat - 48)) 0

/-- Digit-run parse: `some` on a nonempty string of ASCII digits, else
`none`. -/
def parseDigits (l : List Char) : Option Nat :=
  if l ≠ [] ∧ l.all Char.isDigit then some (digitCharsToNat l) else none

/-- `strings.TrimSpace`, modelled on the character list: drop whitespace
from both ends (Go trims Unicode space; `Char.isWhitespace` agrees on the
ASCII contents sysfs produces). -/
def goTrimSpace (s : String) : String :=
  String.mk (((s.data.dropWhile Char.isWhitespace).reverse.dropWhile Char.isWhitespace).reverse)

/-- `strconv.Atoi`: an optional leading sign followed by a nonempty digit
run (anything else is a syntax error), with the range check of
`ParseInt(s, 10, 0)` on 64-bit `int` platforms: a syntactically valid
numeral denoting a value outside `[-2^63, 2^63 - 1]` is a range error
(Go then returns the clamped limit together with `ErrRange`; only the
non-nil error matters to the caller modelled here, which discards the
value on any error). -/
def goAtoi (s : String) : Except String Int :=
  match s.data with
  | [] => .error "invalid syntax"
  | c :: rest =>
    if c = '-' then
      match parseDigits rest with
      | some n =>
        if n ≤ 2 ^ 63 then .ok (-(n : Int)) else .error "value out of range"
      | none => .error "invalid syntax"
    else if c = '+' then
      match parseDigits rest with
      | some n =>
        if n < 2 ^ 63 then .ok (n : Int) else .error "value out of range"
      | none => .error "invalid syntax"
    else
      match parseDigits (c :: rest) with
      | some n =>
        if n < 2 ^ 63 then .ok (n : Int) else .error "value out of range"
      | none => .error "invalid syntax"

/-- Whether `strconv.Atoi` accepts the string: optional sign, a nonempty
digit run, and a denoted value within the 64-bit `int` range
(`-2^63 ≤ value ≤ 2^63 - 1`).  Note that this accepts negative integers. -/
def isGoInt (s : String) : Bool :=
  match s.data with
  | [] => false
  | c :: rest =>
    if c = '-' then
      match parseDigits rest with
      | some n => decide (n ≤ 2 ^ 63)
      | none => false
    else if c = '+' then
      match parseDigits rest with
      | some n => decide (n < 2 ^ 63)
      | none => false
    else
      match parseDigits (c :: rest) with
      | some n => decide (n < 2 ^ 63)
      | none => false

theorem goAtoi_error_iff (s : String) :
    (∃ msg, goAtoi s = .error msg) ↔ isGoInt s = false := by
  unfold goAtoi isGoInt
  rcases s.data with _ | ⟨c, rest⟩
  · simp
  · by_cases hm : c = '-'
    · rcases hp : parseDigits rest with _ | n
      · simp [hm, hp]
      · by_cases hr : n ≤ 9223372036854775808 <;> simp [hm, hp, hr]
    · by_cases hplus : c = '+'
      · rcases hp : parseDigits rest with _ | n
        · simp [hm, hplus, hp]
        · by_cases hr : n < 9223372036854775808 <;> simp [hm, hplus, hp, hr]
      · rcases hp : parseDigits (c :: rest) with _ | n
        · simp [hm, hplus, hp]
        · by_cases hr : n < 9223372036854775808 <;> simp [hm, hplus, hp, hr]

/-- `filepath.Join NetDirectory ifName "device" sriovConfigured`
(`sriovConfigured` carries its own leading slash, which `Join` cleans). -/
def sriovNumVfsPath (ifName : String) : String :=
  NetDirectory ++ "/" ++ ifName ++ "/device" ++ sriovConfigured

/-- `GetSriovNumVfs` (utils.go:69): `os.Lstat` the `sriov_numvfs` file,
read it, reject empty content, then `strconv.Atoi` of the trimmed content.
`Lstat` + `ReadFile` are both modelled by the single content lookup. -/
def GetSriovNumVfs (fs : SysFS) (ifName : String) : Except String Int :=
  match assocFind fs.files (sriovNumVfsPath ifName) with
  | none => .error ("failed to open the sriov_numfs of device " ++ ifName)
  | some data =>
    if data = "" then .error ("no data in the file " ++ sriovNumVfsPath ifName)
    else
      match goAtoi (goTrimSpace data) with
      | .error _ => .error ("failed to convert sriov_numfs to int of device " ++ ifName)
      | .ok vfTotal => .ok vfTotal

/-- C5 (amended): `GetSriovNumVfs` fails when the `sriov_numvfs` file is
absent or empty, and fails with a parse error whenever the trimmed content
is not an optionally-signed decimal integer within the 64-bit `int` range
(so garbage and out-of-range numerals still yield errors); but a file
containing an in-range negative integer is parsed successfully by
`strconv.Atoi` and returned as a negative count with no error. -/
theorem getSriovNumVfs_spec (fs : SysFS) (ifName : String) :
    (assocFind fs.files (sriovNumVfsPath ifName) = none →
      ∃ msg, GetSriovNumVfs fs ifName = .error msg) ∧
    (∀ data, assocFind fs.files (sriovNumVfsPath ifName) = some data → data = "" →
      ∃ msg, GetSriovNumVfs fs ifName = .error msg) ∧
    (∀ data, assocFind fs.files (sriovNumVfsPath ifName) = some data → data ≠ "" →
      isGoInt (goTrimSpace data) = false → ∃ msg, GetSriovNumVfs fs ifName = .error msg) ∧
    (∀ data n, assocFind fs.files (sriovNumVfsPath ifName) = some data → data ≠ "" →
      goAtoi (goTrimSpace data) = .ok n → GetSriovNumVfs fs ifName = .ok n) := by
  refine ⟨?_, ?_, ?_, ?_⟩
  · intro h; unfold GetSriovNumVfs; rw [h]; exact ⟨_, rfl⟩
  · intro data h hdata; unfold GetSriovNumVfs; rw [h]; simp [hdata]
  · intro data h hdata hint
    unfold GetSriovNumVfs
    rw [h]
    rcases (goAtoi_error_iff (goTrimSpace data)).mpr hint with ⟨msg, hmsg⟩
    simp [hdata, hmsg]
  · intro data n h hdata hok
    unfold GetSriovNumVfs
    rw [h]
    simp [hdata, hok]

/-- A sysfs state whose `eth0` device reports `sriov_numvfs` content
`"-5"`. -/
def fsNegVfs : SysFS :=
  { files := [("/sys/class/net/eth0/device/sriov_numvfs", "-5")],
    symlinks := [], dirs := [] }

/-- C5 counterexample: a `sriov_numvfs` file containing the negative
integer `-5` makes `GetSriovNumVfs` return the negative count `-5` with no
error, contradicting the claim that content which is not a non-negative
integer always yields a parse error. -/
theorem getSriovNumVfs_negative_counterexample :
    GetSriovNumVfs fsNegVfs "eth0" = .ok (-5) := by decide

theorem getSriovNumVfs_spec_witness :
    GetSriovNumVfs fsNegVfs "eth0" = .ok (-5) ∧
    (∃ msg, GetSriovNumVfs fsNegVfs "eth1" = .error msg) :=
  ⟨(getSriovNumVfs_spec fsNegVfs "eth0").2.2.2 "-5" (-5) (by decide) (by decide) (by decide),
   (getSriovNumVfs_spec fsNegVfs "eth1").1 (by decide)⟩

/-! ## VF index / PCI address resolution (utils.go lines 95-160) -/

/-- `filepath.Join NetDirectory pfName "device" (fmt.Sprintf "virtfn%d" vf)`;
`Int.toString` renders exactly as `%d` on Go `int`. -/
def virtfnPath (pfName : String) (vf : Int) : String :=
  NetDirectory ++ "/" ++ pfName ++ "/device/virtfn" ++ toString vf

/-- `filepath.Base`: empty path gives `"."`; otherwise strip trailing
slashes, a path of only slashes gives `"/"`, else the part after the last
slash. -/
def filepathBase (p : String) : String :=
  if p = "" then "."
  else
    let q := (p.data.reverse.dropWhile (fun c => c == '/')).reverse
    if q = [] then "/"
    else String.mk ((q.reverse.takeWhile (fun c => c != '/')).reverse)

/-- The `os.Lstat` + `os.Readlink` pair on a `virtfn<vf>` entry, as `GetVfid`
uses it: the target when the entry is a symlink, `none` when it is absent or
not a symlink (`GetVfid` skips the index on either failure). -/
def vfLinkTarget (fs : SysFS) (pfName : String) (vf : Int) : Option String :=
  assocFind fs.symlinks (virtfnPath pfName vf)

/-- `GetPciAddress` (utils.go:141): `os.Lstat` the `virtfn<vf>` entry
(errors when absent), reject a non-symlink entry (`ModeSymlink` check),
`os.Readlink` it and return the target's `filepath.Base`. -/
def GetPciAddress (fs : SysFS) (ifName : String) (vf : Int) : Except String String :=
  match assocFind fs.symlinks (virtfnPath ifName vf) with
  | some pciinfo => .ok (filepathBase pciinfo)
  | none =>
    match assocFind fs.files (virtfnPath ifName vf) with
    | some _ => .error ("no symbolic link for the virtfn dir of the device " ++ ifName)
    | none => .error ("cannot get the symbolic link of virtfn dir of the device " ++ ifName)

/-- The `for vf := 0; vf < vfTotal; vf++` loop of `GetVfid` (utils.go:102):
scan `virtfn<vf>` links starting at index `start` with `fuel` indices left,
returning the first index whose resolved basename equals `addr`. -/
def getVfidScan (fs : SysFS) (addr pfName : String) : Nat → Nat → Option Nat
  | _, 0 => none
  | vf, fuel + 1 =>
    match vfLinkTarget fs pfName (Int.ofNat vf) with
    | none => getVfidScan fs addr pfName (vf + 1) fuel
    | some pciinfo =>
      if filepathBase pciinfo = addr then some vf
      else getVfidScan fs addr pfName (vf + 1) fuel

/-- `GetVfid` (utils.go:96): read the VF count, then scan
`virtfn0..virtfn(vfTotal-1)` for the first link whose basename matches
`addr`; no match across the full count is an error. -/
def GetVfid (fs : SysFS) (addr pfName : String) : Except String Nat :=
  match GetSriovNumVfs fs pfName with
  | .error e => .error e
  | .ok vfTotal =>
    match getVfidScan fs addr pfName 0 vfTotal.toNat with
    | some vf => .ok vf
    | none => .error ("unable to get VF ID with PF " ++ pfName ++
        " and VF pci address " ++ addr)

theorem getVfidScan_finds (fs : SysFS) (pfName addr : String) (i : Nat) :
    ∀ fuel start, start ≤ i → i < start + fuel →
      (∀ j, start ≤ j → j < i → ∀ t, vfLinkTarget fs pfName (Int.ofNat j) = some t →
        filepathBase t ≠ addr) →
      (∃ t, vfLinkTarget fs pfName (Int.ofNat i) = some t ∧ filepathBase t = addr) →
      getVfidScan fs addr pfName start fuel = some i := by
  intro fuel
  induction fuel with
  | zero => intro start h1 h2 _ _; omega
  | succ f ih =>
    intro start h1 h2 hmiss hhit
    rcases hhit with ⟨t, ht, hbase⟩
    by_cases hstart : start = i
    · subst hstart
      unfold getVfidScan
      rw [ht]
      show (if filepathBase t = addr then some start
        else getVfidScan fs addr pfName (start + 1) f) = some start
      rw [if_pos hbase]
    · have hlt : start < i := lt_of_le_of_ne h1 hstart
      unfold getVfidScan
      cases hcase : vfLinkTarget fs pfName (Int.ofNat start) with
      | none =>
        exact ih (start + 1) hlt (by omega)
          (fun j hj1 hj2 => hmiss j (by omega) hj2) ⟨t, ht, hbase⟩
      | some t0 =>
        show (if filepathBase t0 = addr then some start
          else getVfidScan fs addr pfName (start + 1) f) = some i
        rw [if_neg (hmiss start le_rfl hlt t0 hcase)]
        exact ih (start + 1) hlt (by omega)
          (fun j hj1 hj2 => hmiss j (by omega) hj2) ⟨t, ht, hbase⟩

/-- C3: on a PF reporting `N` configured VFs, for a VF index `i < N` whose
`virtfn<i>` symlink exists, and under the precondition that distinct
existing `virtfn` links resolve to distinct PCI address basenames,
`GetPciAddress` returns the link's basename and `GetVfid` maps that address
back to `i` — resolving a VF's PCI address back to an index is the
identity. -/
theorem getVfid_getPciAddress_identity (fs : SysFS) (pfName : String) (N : Int)
    (i : Nat) (target : String)
    (hN : GetSriovNumVfs fs pfName = .ok N)
    (hi : (i : Int) < N)
    (hlink : vfLinkTarget fs pfName (Int.ofNat i) = some target)
    (hinj : ∀ j k : Nat, j < N.toNat → k < N.toNat →
      ∀ tj tk, vfLinkTarget fs pfName (Int.ofNat j) = some tj →
        vfLinkTarget fs pfName (Int.ofNat k) = some tk →
        filepathBase tj = filepathBase tk → j = k) :
    GetPciAddress fs pfName (Int.ofNat i) = .ok (filepathBase target) ∧
    GetVfid fs (filepathBase target) pfName = .ok i := by
  have hiN : i < N.toNat := by omega
  constructor
  · unfold GetPciAddress
    unfold vfLinkTarget at hlink
    rw [hlink]
  · unfold GetVfid
    rw [hN]
    have hscan : getVfidScan fs (filepathBase target) pfName 0 N.toNat = some i := by
      apply getVfidScan_finds
      · exact Nat.zero_le i
      · omega
      · intro j _ hj2 t htj hbase
        exact absurd (hinj j i (by omega) hiN t target htj hlink hbase) (by omega)
      · exact ⟨target, hlink, rfl⟩
    show (match getVfidScan fs (filepathBase target) pfName 0 N.toNat with
      | some vf => Except.ok vf
      | none => Except.error ("unable to get VF ID with PF " ++ pfName ++
          " and VF pci address " ++ filepathBase target)) = Except.ok i
    rw [hscan]

/-- The spec's end-to-end scenario: PF `eth0` with `sriov_numvfs = 4` and
`virtfn2 -> ../0000:01:00.2`. -/
def fsC3 : SysFS :=
  { files := [("/sys/class/net/eth0/device/sriov_numvfs", "4")],
    symlinks := [("/sys/class/net/eth0/device/virtfn2", "../0000:01:00.2")],
    dirs := [] }

theorem getVfid_getPciAddress_identity_witness :
    GetPciAddress fsC3 "eth0" (Int.ofNat 2) = .ok "0000:01:00.2" ∧
    GetVfid fsC3 "0000:01:00.2" "eth0" = .ok 2 := by
  have h := getVfid_getPciAddress_identity fsC3 "eth0" 4 2 "../0000:01:00.2"
    (by decide) (by decide) (by decide) ?hinj
  case hinj =>
    intro j k hj hk tj tk hjl hkl hbase
    rw [show (4 : Int).toNat = 4 from rfl] at hj hk
    interval_cases j <;> interval_cases k <;>
      (try simp only [show vfLinkTarget fsC3 "eth0" (Int.ofNat 0) = none from by decide,
        show vfLinkTarget fsC3 "eth0" (Int.ofNat 1) = none from by decide,
        show vfLinkTarget fsC3 "eth0" (Int.ofNat 3) = none from by decide] at hjl hkl) <;>
      first | rfl | exact Option.noConfusion hjl | exact Option.noConfusion hkl
  rwa [show filepathBase "../0000:01:00.2" = "0000:01:00.2" from by decide] at h

/-! ## VF netdevice name listing (utils.go lines 189-231) -/

/-- `GetVFLinkNames` (utils.go:190): `os.Lstat` then `os.ReadDir` on
`SysBusPci/<pciAddr>/net` (both modelled by the directory lookup); an empty
listing is an error; the `names` slice is built from all entries but only
`names[0]` is returned. -/
def GetVFLinkNames (fs : SysFS) (pciAddr : String) : Except String String :=
  match assocFind fs.dirs (SysBusPci ++ "/" ++ pciAddr ++ "/net") with
  | none => .error ("lstat of net dir of the device " ++ pciAddr ++ " failed")
  | some fInfos =>
    match fInfos with
    | [] => .error ("VF device " ++ pciAddr ++ " sysfs path has no entries")
    | name :: _ => .ok name

/-- `GetVFLinkNamesFromVFID` (utils.go:214): `os.Lstat` then `os.ReadDir`
on `NetDirectory/<pfName>/device/virtfn<vfID>/net` (both modelled by the
directory lookup); all entry names are returned, and the source has no
emptiness check — an empty directory yields an empty list with no error. -/
def GetVFLinkNamesFromVFID (fs : SysFS) (pfName : String) (vfID : Int) :
    Except String (List String) :=
  match assocFind fs.dirs (virtfnPath pfName vfID ++ "/net") with
  | none => .error ("lstat of the virtfn dir of the device " ++ pfName ++ " failed")
  | some fInfos => .ok fInfos

/-- C6 (amended): both functions fail when the `net/` directory is missing;
`GetVFLinkNames` fails when it is empty but returns only the first entry,
not all of them; `GetVFLinkNamesFromVFID` returns all entries yet returns
an empty list with no error when the directory is empty. -/
theorem getVFLinkNames_spec (fs : SysFS) (pciAddr pfName : String) (vfID : Int) :
    (assocFind fs.dirs (SysBusPci ++ "/" ++ pciAddr ++ "/net") = none →
      ∃ msg, GetVFLinkNames fs pciAddr = .error msg) ∧
    (assocFind fs.dirs (SysBusPci ++ "/" ++ pciAddr ++ "/net") = some [] →
      ∃ msg, GetVFLinkNames fs pciAddr = .error msg) ∧
    (∀ name rest, assocFind fs.dirs (SysBusPci ++ "/" ++ pciAddr ++ "/net") =
        some (name :: rest) → GetVFLinkNames fs pciAddr = .ok name) ∧
    (assocFind fs.dirs (virtfnPath pfName vfID ++ "/net") = none →
      ∃ msg, GetVFLinkNamesFromVFID fs pfName vfID = .error msg) ∧
    (∀ entries, assocFind fs.dirs (virtfnPath pfName vfID ++ "/net") = some entries →
      GetVFLinkNamesFromVFID fs pfName vfID = .ok entries) := by
  refine ⟨?_, ?_, ?_, ?_, ?_⟩
  · intro h; unfold GetVFLinkNames; rw [h]; exact ⟨_, rfl⟩
  · intro h; unfold GetVFLinkNames; rw [h]; exact ⟨_, rfl⟩
  · intro name rest h; unfold GetVFLinkNames; rw [h]
  · intro h; unfold GetVFLinkNamesFromVFID; rw [h]; exact ⟨_, rfl⟩
  · intro entries h; unfold GetVFLinkNamesFromVFID; rw [h]

/-- A sysfs state where `eth0`'s `virtfn0` exposes an empty `net/`
directory and the PCI device `0000:01:00.2` exposes two netdevices. -/
def fsC6 : SysFS :=
  { files := [], symlinks := [],
    dirs := [("/sys/class/net/eth0/device/virtfn0/net", []),
             ("/sys/bus/pci/devices/0000:01:00.2/net", ["eth5", "eth5repr"])] }

/-- C6 counterexample: on an existing but empty `net/` directory,
`GetVFLinkNamesFromVFID` returns an empty list with no error instead of
failing, and on a directory with two entries `GetVFLinkNames` returns only
the first entry rather than all of them. -/
theorem getVFLinkNames_counterexample :
    GetVFLinkNamesFromVFID fsC6 "eth0" (Int.ofNat 0) = .ok [] ∧
    GetVFLinkNames fsC6 "0000:01:00.2" = .ok "eth5" := by decide

theorem getVFLinkNames_spec_witness :
    GetVFLinkNamesFromVFID fsC6 "eth0" (Int.ofNat 0) = .ok [] ∧
    ∃ msg, GetVFLinkNames fsC6 "0000:01:00.9" = .error msg :=
  ⟨(getVFLinkNames_spec fsC6 "0000:01:00.9" "eth0" (Int.ofNat 0)).2.2.2.2 [] (by decide),
   (getVFLinkNames_spec fsC6 "0000:01:00.9" "eth0" (Int.ofNat 0)).1 (by decide)⟩

/-! ## Container-rooted netdevice listing (utils.go lines 233-240, 408-424) -/

/-- One step of splitting a character list at `c`: the first segment and
the remaining segments. -/
def splitOnChar (c : Char) : List Char → List Char × List (List Char)
  | [] => ([], [])
  | x :: xs =>
    let r := splitOnChar c xs
    if x = c then ([], r.1 :: r.2) else (x :: r.1, r.2)

/-- `strings.Split s "/"`, on the character list (for a one-character
separator Go's `Split` is exactly a split at that character, and the
returned slice has `cap = len`). -/
def goSplitSlash (s : String) : List String :=
  let r := splitOnChar '/' s.data
  (r.1 :: r.2).map String.mk

theorem splitOnChar_snd_length (c : Char) (l : List Char) :
    (splitOnChar c l).2.length = l.count c := by
  induction l with
  | nil => rfl
  | cons x xs ih =>
    by_cases h : x = c <;> simp [splitOnChar, h, ih, List.count_cons]

theorem goSplitSlash_length (s : String) :
    (goSplitSlash s).length = s.data.count '/' + 1 := by
  simp [goSplitSlash, splitOnChar_snd_length]

/-- `getFileNamesFromPath` (utils.go:408): `Stat` then `ReadDir` (both
modelled by the directory lookup), returning each entry name trimmed. -/
def getFileNamesFromPath (fs : SysFS) (dir : String) : Except String (List String) :=
  match assocFind fs.dirs dir with
  | none => .error ("could not stat the directory " ++ dir)
  | some files => .ok (files.map goTrimSpace)

/-- `GetContainerNetDevFromPci` (utils.go:235):
`strings.Split(netNSPath, "/")[1:3]` slices the split result with no bounds
check, so Go panics when the split yields fewer than three segments
(`cap = len` for `strings.Split`); the panic is modelled as `none`.
Otherwise the two pid segments are rejoined and `filepath.Join`-ed with
`ContainerSysBusPci` (whose leading slash `Join` cleans), the PCI address
and `net`, and the entries there are listed. -/
def GetContainerNetDevFromPci (fs : SysFS) (netNSPath pciAddress : String) :
    Option (Except String (List String)) :=
  let parts := goSplitSlash netNSPath
  if parts.length < 3 then none
  else
    let PidSlice := (parts.drop 1).take 2
    let PidPath := String.intercalate "/" PidSlice
    some (getFileNamesFromPath fs
      (PidPath ++ ContainerSysBusPci ++ "/" ++ pciAddress ++ "/net"))

/-- C9: `GetContainerNetDevFromPci` is not total in `netNSPath`: it panics
(modelled as `none`) exactly when the path contains fewer than two `/`
separators — fewer than three `/`-split segments — and returns normally
otherwise. -/
theorem getContainerNetDevFromPci_totality (fs : SysFS) (netNSPath pciAddress : String) :
    GetContainerNetDevFromPci fs netNSPath pciAddress = none ↔
      netNSPath.data.count '/' < 2 := by
  unfold GetContainerNetDevFromPci
  by_cases h : (goSplitSlash netNSPath).length < 3
  · rw [goSplitSlash_length] at h
    simp only [goSplitSlash_length, if_pos (by omega : netNSPath.data.count '/' + 1 < 3)]
    constructor
    · intro _; omega
    · intro _; trivial
  · rw [goSplitSlash_length] at h
    simp only [goSplitSlash_length, if_neg (by omega : ¬netNSPath.data.count '/' + 1 < 3)]
    constructor
    · intro hc; exact Option.noConfusion hc
    · intro hc; omega

/-! ## Retry helper (utils.go lines 347-358) -/

/-- The `for retry := 0; retry < retries` loop of `Retry` (utils.go:350).
The stateful operation `f` is modelled by its invocation outcomes:
`results k = none` means the `(k+1)`-th call returns nil, `some e` that it
returns error `e`.  `err` is the last observed error (initially nil),
`retry` the number of calls made so far, `fuel` the iterations left; the
result is (total number of calls of `f`, the error `Retry` returns).
`time.Sleep` has no observable effect in the model. -/
def retryLoop (results : Nat → Option String) (err : Option String) (retry fuel : Nat) :
    Nat × Option String :=
  match fuel with
  | 0 => (retry, err)
  | fuel + 1 =>
    match results retry with
    | none => (retry + 1, none)
    | some e => retryLoop results (some e) (retry + 1) fuel

/-- `Retry` (utils.go:348), with `retries : int`: run the loop from zero
calls with a nil last error; a non-positive `retries` gives zero
iterations. -/
def Retry (retries : Int) (results : Nat → Option String) : Nat × Option String :=
  retryLoop results none 0 retries.toNat

theorem retryLoop_count_le (results : Nat → Option String) :
    ∀ fuel retry err, (retryLoop results err retry fuel).1 ≤ retry + fuel := by
  intro fuel
  induction fuel with
  | zero => intro retry err; simp [retryLoop]
  | succ f ih =>
    intro retry err
    unfold retryLoop
    cases hr : results retry with
    | none =>
      show retry + 1 ≤ retry + (f + 1)
      omega
    | some e =>
      calc (retryLoop results (some e) (retry + 1) f).1 ≤ retry + 1 + f := ih _ _
        _ ≤ retry + (f + 1) := by omega

theorem retryLoop_first_success (results : Nat → Option String) :
    ∀ fuel retry err k, retry ≤ k → k < retry + fuel → results k = none →
      (∀ j, retry ≤ j → j < k → results j ≠ none) →
      retryLoop results err retry fuel = (k + 1, none) := by
  intro fuel
  induction fuel with
  | zero => intro retry err k h1 h2 _ _; omega
  | succ f ih =>
    intro retry err k h1 h2 hk hmiss
    unfold retryLoop
    by_cases hrk : retry = k
    · subst hrk
      rw [hk]
    · cases hr : results retry with
      | none => exact absurd hr (hmiss retry le_rfl (by omega))
      | some e =>
        exact ih (retry + 1) (some e) k (by omega) (by omega) hk
          (fun j hj1 hj2 => hmiss j (by omega) hj2)

theorem retryLoop_all_fail (results : Nat → Option String) :
    ∀ fuel retry err, 0 < fuel →
      (∀ j, retry ≤ j → j < retry + fuel → results j ≠ none) →
      retryLoop results err retry fuel = (retry + fuel, results (retry + fuel - 1)) := by
  intro fuel
  induction fuel with
  | zero => intro retry err h _; omega
  | succ f ih =>
    intro retry err _ hfail
    unfold retryLoop
    cases hr : results retry with
    | none => exact absurd hr (hfail retry le_rfl (by omega))
    | some e =>
      rcases Nat.eq_zero_or_pos f with hf | hf
      · subst hf
        simp [retryLoop, hr]
      · show retryLoop results (some e) (retry + 1) f =
          (retry + (f + 1), results (retry + (f + 1) - 1))
        rw [ih (retry + 1) (some e) hf (fun j hj1 hj2 => hfail j (by omega) (by omega))]
        have harith : retry + 1 + f = retry + (f + 1) := by omega
        rw [harith]

/-- C7: for a positive retry count, `Retry` makes at most that many calls,
returns nil immediately at the first successful call (having made exactly
`k + 1` calls when the first success is the `(k+1)`-th), and when every
call fails it returns exactly the error of the last call, not an
aggregate. -/
theorem retry_spec (retries : Int) (results : Nat → Option String)
    (hpos : 0 < retries) :
    (Retry retries results).1 ≤ retries.toNat ∧
    (∀ k, k < retries.toNat → results k = none → (∀ j, j < k → results j ≠ none) →
      Retry retries results = (k + 1, none)) ∧
    ((∀ j, j < retries.toNat → results j ≠ none) →
      Retry retries results = (retries.toNat, results (retries.toNat - 1))) := by
  refine ⟨?_, ?_, ?_⟩
  · simpa using retryLoop_count_le results retries.toNat 0 none
  · intro k hk hkn hmiss
    exact retryLoop_first_success results retries.toNat 0 none k (Nat.zero_le k)
      (by omega) hkn (fun j _ hj2 => hmiss j hj2)
  · intro hfail
    simpa using retryLoop_all_fail results retries.toNat 0 none (by omega)
      (fun j _ hj2 => hfail j (by omega))

/-- An operation failing on its first two invocations and succeeding on the
third. -/
def resultsFailTwice : Nat → Option String :=
  fun k => if k < 2 then some "transient" else none

theorem retry_spec_witness : Retry 3 resultsFailTwice = (3, none) :=
  (retry_spec 3 resultsFailTwice (by decide)).2.1 2 (by decide) (by decide) (by decide)

/-- C8: `Retry` with a retry count less than or equal to zero makes zero
calls and returns a nil error. -/
theorem retry_nonpos (retries : Int) (results : Nat → Option String)
    (h : retries ≤ 0) : Retry retries results = (0, none) := by
  unfold Retry
  rw [show retries.toNat = 0 from by omega]
  rfl

theorem retry_nonpos_witness : Retry (-1) (fun _ => some "boom") = (0, none) :=
  retry_nonpos (-1) (fun _ => some "boom") (by decide)

end EvpnCni
